import Mathlib

/-!
# Verification of the studycapt CAPT/SCoA core

Shallow embedding of the two core subsystems of the studycapt toolkit:

* `scoa.py` — the SCoA raster decompressor (`SCoADecoder`);
* `captstream.py` — the CAPT container parser (`CAPTStream`: packet
  scanner, packet extractor, raster-dimension reader, `get_page`).

Byte streams are modelled as `List Nat` (Python iterators of `u8` values,
consumed front to back).  Generator-based code is modelled strictly: a
function returns `Except ε α` where Python would either yield the whole
sequence or raise (an exception raised by `next` inside a generator body
surfaces as `RuntimeError` per PEP 479; either way the run fails, which
the `.error` case captures).  Loops that consume at least one input byte
per iteration are written with an explicit fuel argument instantiated
with the stream length, which is always sufficient, so the definitions
stay kernel-computable.
-/

/-- `WORD(lo, hi)` from captstream.py: 16-bit little-endian word. -/
def WORD (lo hi : Nat) : Nat := (hi <<< 8) ||| lo

/-! ## SCoA decoder (scoa.py, class SCoADecoder) -/

def UINT_3_MASK_HI : Nat := 0x38
def UINT_3_MASK_LO : Nat := 0x07
def UINT_5_MASK : Nat := 0x1F

/-- Failure modes of a decode run.  `unexpectedEnd` covers every
`StopIteration`/`RuntimeError` from pulling an exhausted input iterator;
`unrecognised` is the `ValueError('unrecognised opcode', ...)` branch;
`indexError` is the `self._buffer[self._i_buf] = x` store with an index
outside the buffer (possible only when `line_size ≤ 0`); `fuelOut` is an
artefact of the fuel encoding and is unreachable when the fuel is the
input length. -/
inductive DecErr where
  | unexpectedEnd : DecErr
  | unrecognised : Nat → DecErr
  | indexError : DecErr
  | fuelOut : DecErr
deriving Repr, DecidableEq

/-- The values extracted from one opcode (one iteration of the `for b in
biter` loop in `SCoADecoder.decode`, before the writeout): counts
`npx, np, nr`, repeat byte `rb`, literal bytes `ub`, the remaining input
`rest`, and whether the opcode was EOP. -/
structure ParsedOp where
  npx : Nat := 0
  np : Nat := 0
  nr : Nat := 0
  rb : Nat := 0
  ub : List Nat := []
  rest : List Nat
  eop : Bool := false
deriving Repr, DecidableEq

/-- The `while b == SCOA_LONG_OLDB_248` loop (scoa.py lines 213-216):
count consecutive 0x9F bytes, returning the count, the first non-0x9F
byte and the input after it. -/
def skip9F : Nat → List Nat → Nat → Except DecErr (Nat × Nat × List Nat)
  | b, rest, npx =>
    if b = 0x9F then
      match rest with
      | [] => .error .unexpectedEnd
      | b2 :: rest2 => skip9F b2 rest2 (npx + 1)
    else .ok (npx, b, rest)

/-- One opcode of `SCoADecoder.decode` (scoa.py lines 176-293): dispatch
on the first byte `b`, consuming any sub-opcode bytes, the repeat byte
and the literal bytes from `rest`.  The branch structure and the order of
the tests mirror the `if`/`elif` chain of the source; Python `x |= y` is
written `x ||| y`. -/
def parseOp (line_size i_buf : Nat) (b : Nat) (rest : List Nat) : Except DecErr ParsedOp :=
  if b = 0x40 then .ok { rest := rest }
  else if b = 0x41 then .ok { np := line_size - i_buf, rest := rest }
  else if b = 0x42 then .ok { rest := rest, eop := true }
  else if b &&& 0xC0 = 0x00 then
    -- SCOA_OLD_NEW
    let nu := (b &&& UINT_3_MASK_HI) >>> 3
    if nu ≤ rest.length then
      .ok { np := b &&& UINT_3_MASK_LO, ub := rest.take nu, rest := rest.drop nu }
    else .error .unexpectedEnd
  else if b &&& 0xC0 = 0x40 then
    -- SCOA_OLD_REPEAT
    match rest with
    | [] => .error .unexpectedEnd
    | rb :: rest1 =>
      .ok { np := b &&& UINT_3_MASK_LO, nr := (b &&& UINT_3_MASK_HI) >>> 3,
            rb := rb, rest := rest1 }
  else if b &&& 0xC0 = 0xC0 then
    -- SCOA_REPEAT_NEW
    let nr := (b &&& UINT_3_MASK_HI) >>> 3
    let nu := b &&& UINT_3_MASK_LO
    if 0 < nr ∧ 0 < nu then
      match rest with
      | [] => .error .unexpectedEnd
      | rb :: rest1 =>
        if nu ≤ rest1.length then
          .ok { nr := nr, rb := rb, ub := rest1.take nu, rest := rest1.drop nu }
        else .error .unexpectedEnd
    else
      -- defensive branch: hold back the input, write out zeroes instead
      .ok { nr := nr, ub := List.replicate nu 0, rest := rest }
  else if b &&& 0xE0 = 0x80 then
    -- SCOA_LONG_OLDB
    match skip9F b rest 0 with
    | .error e => .error e
    | .ok (npx, b1, rest1) =>
      match
        (if b1 &&& 0xE0 = 0x80 then
          match rest1 with
          | [] => Except.error DecErr.unexpectedEnd
          | b2 :: rest2 => Except.ok ((b1 &&& UINT_5_MASK) <<< 3, b2, rest2)
        else Except.ok (0, b1, rest1)) with
      | .error e => .error e
      | .ok (npHi, bs, rests) =>
        if bs &&& 0xC0 = 0x00 then
          -- SCOA_LOLD_NEWB
          let nu := (bs &&& UINT_3_MASK_HI) >>> 3
          if nu ≤ rests.length then
            .ok { npx := npx, np := npHi ||| (bs &&& UINT_3_MASK_LO),
                  ub := rests.take nu, rest := rests.drop nu }
          else .error .unexpectedEnd
        else if bs &&& 0xC0 = 0x40 then
          -- SCOA_LOLD_REPEAT
          match rests with
          | [] => .error .unexpectedEnd
          | rb :: r1 =>
            .ok { npx := npx, np := npHi ||| (bs &&& UINT_3_MASK_LO),
                  nr := (bs &&& UINT_3_MASK_HI) >>> 3, rb := rb, rest := r1 }
        else if bs &&& 0xE0 = 0xA0 then
          -- SCOA_LOLD_WITH_LONG: a third byte follows
          match rests with
          | [] => .error .unexpectedEnd
          | b3 :: r1 =>
            let nl := (bs &&& UINT_5_MASK) <<< 3
            if b3 &&& 0xC0 = 0x80 then
              -- SCOA_LOLD_REPEAT_LONG
              match r1 with
              | [] => .error .unexpectedEnd
              | rb :: r2 =>
                .ok { npx := npx, np := npHi ||| (b3 &&& UINT_3_MASK_LO),
                      nr := nl ||| ((b3 &&& UINT_3_MASK_HI) >>> 3), rb := rb, rest := r2 }
            else if b3 &&& 0xC0 = 0xC0 then
              -- SCOA_LOLD_NEW_LONG
              let nu := nl ||| ((b3 &&& UINT_3_MASK_HI) >>> 3)
              if nu ≤ r1.length then
                .ok { npx := npx, np := npHi ||| (b3 &&& UINT_3_MASK_LO),
                      ub := r1.take nu, rest := r1.drop nu }
              else .error .unexpectedEnd
            else
              -- no matching sub-sub-opcode: the elif chain falls through
              .ok { npx := npx, np := npHi, rest := r1 }
        else
          -- no matching sub-opcode: the elif chain falls through
          .ok { npx := npx, np := npHi, rest := rests }
  else if b &&& 0xE0 = 0xA0 then
    -- SCOA_LONG_REPEAT
    let nr0 := (b &&& UINT_5_MASK) <<< 3
    match rest with
    | [] => .error .unexpectedEnd
    | nb :: rest1 =>
      if nb &&& 0xC0 = 0xC0 then
        -- SCOA_LR_OLD_NEW_LONG
        let nu := nr0 ||| ((nb &&& UINT_3_MASK_HI) >>> 3)
        if nu ≤ rest1.length then
          .ok { np := nb &&& UINT_3_MASK_LO, ub := rest1.take nu, rest := rest1.drop nu }
        else .error .unexpectedEnd
      else if nb &&& 0xC0 = 0x40 then
        -- SCOA_LR_LONG_NEW_REPEAT
        let nu := nr0 ||| (nb &&& UINT_3_MASK_LO)
        match rest1 with
        | [] => .error .unexpectedEnd
        | rb :: r1 =>
          if nu ≤ r1.length then
            .ok { nr := (nb &&& UINT_3_MASK_HI) >>> 3, rb := rb,
                  ub := r1.take nu, rest := r1.drop nu }
          else .error .unexpectedEnd
      else if nb &&& 0xC0 = 0x80 then
        -- SCOA_LR_OLD_REPEAT_LONG
        match rest1 with
        | [] => .error .unexpectedEnd
        | rb :: r1 =>
          .ok { np := nb &&& UINT_3_MASK_LO,
                nr := nr0 ||| ((nb &&& UINT_3_MASK_HI) >>> 3), rb := rb, rest := r1 }
      else
        -- SCOA_LR_NEWB (nb &&& 0xC0 = 0x00, the remaining case)
        let nu := nb &&& UINT_3_MASK_LO
        match rest1 with
        | [] => .error .unexpectedEnd
        | rb :: r1 =>
          if nu ≤ r1.length then
            .ok { nr := nr0 ||| ((nb &&& UINT_3_MASK_HI) >>> 3), rb := rb,
                  ub := r1.take nu, rest := r1.drop nu }
          else .error .unexpectedEnd
  else .error (.unrecognised b)

/-- Decoder state: `line_size`, the single line buffer `_buffer` (it acts
both as the previous line, read by back-references, and as the current
line, written byte by byte), the write index `_i_buf` and the line
counter `_i_line`. -/
structure DecState where
  line_size : Nat
  buffer : List Nat
  i_buf : Nat
  i_line : Nat
deriving Repr, DecidableEq

/-- The per-byte write loop of `SCoADecoder.decode` (scoa.py lines
299-306): store each output byte at `_i_buf`, advance, and wrap to a new
line when `_i_buf` reaches `line_size`. -/
def writeBytes : List Nat → DecState → Except DecErr DecState
  | [], st => .ok st
  | x :: xs, st =>
    if st.i_buf < st.buffer.length then
      if st.line_size ≤ st.i_buf + 1 then
        writeBytes xs ⟨st.line_size, st.buffer.set st.i_buf x, 0, st.i_line + 1⟩
      else
        writeBytes xs ⟨st.line_size, st.buffer.set st.i_buf x, st.i_buf + 1, st.i_line⟩
    else .error .indexError

/-- The main loop of `SCoADecoder.decode`: parse an opcode, expand it via
`_writeout` (`old ++ repeat ++ new`, where the old bytes are the eagerly
taken slice `_buffer[_i_buf : _i_buf + total_np]`, silently truncated at
the end of the buffer), write the expansion into the buffer, and recurse
on the rest of the input.  Returns the concatenated yielded bytes
together with a trace recording, for each executed opcode,
`(i_buf at the opcode, 248*npx + np, nr, number of literal bytes)`. -/
def decodeSteps (fuel : Nat) (st : DecState) (input : List Nat) :
    Except DecErr (List Nat × List (Nat × Nat × Nat × Nat)) :=
  match fuel, input with
  | _, [] => .ok ([], [])
  | 0, _ :: _ => .error .fuelOut
  | f + 1, b :: rest =>
    match parseOp st.line_size st.i_buf b rest with
    | .error e => .error e
    | .ok p =>
      if p.eop then .ok ([], [])
      else
        let total_np := 248 * p.npx + p.np
        let old := (st.buffer.drop st.i_buf).take total_np
        let out := old ++ List.replicate p.nr p.rb ++ p.ub
        match writeBytes out st with
        | .error e => .error e
        | .ok st2 =>
          match decodeSteps f st2 p.rest with
          | .error e => .error e
          | .ok (outs, tr) =>
            .ok (out ++ outs, (st.i_buf, total_np, p.nr, p.ub.length) :: tr)

/-- The state of a freshly constructed `SCoADecoder(line_size,
init_value=bytes([initv]))`: buffer filled with the init byte, indices
zero. -/
def initState (line_size initv : Nat) : DecState :=
  { line_size := line_size, buffer := List.replicate line_size initv,
    i_buf := 0, i_line := 0 }

/-- `SCoADecoder.decode`: the sequence of bytes yielded by a successful
run (each opcode consumes at least one input byte, so `input.length` fuel
always suffices). -/
def decode (st : DecState) (input : List Nat) : Except DecErr (List Nat) :=
  (decodeSteps input.length st input).map Prod.fst

/-- The opcode trace of a decode run (instrumentation over the same
recursion; `decode = ok` iff `decodeTrace = ok`). -/
def decodeTrace (st : DecState) (input : List Nat) :
    Except DecErr (List (Nat × Nat × Nat × Nat)) :=
  (decodeSteps input.length st input).map Prod.snd

/-! ## Decoder invariants -/

/-- Buffer-length/index invariant preservation of the write loop. -/
lemma writeBytes_inv : ∀ (bs : List Nat) (st st2 : DecState),
    writeBytes bs st = .ok st2 →
    st.buffer.length = st.line_size →
    (st.i_buf < st.line_size ∨ st.i_buf = 0) →
    st2.buffer.length = st2.line_size ∧ (st2.i_buf < st2.line_size ∨ st2.i_buf = 0) ∧
      st2.line_size = st.line_size := by
  intro bs
  induction bs with
  | nil =>
    intro st st2 h h1 h2
    simp only [writeBytes] at h
    cases h
    exact ⟨h1, h2, rfl⟩
  | cons x xs ih =>
    intro st st2 h h1 h2
    simp only [writeBytes] at h
    by_cases hib : st.i_buf < st.buffer.length
    · rw [if_pos hib] at h
      by_cases hwrap : st.line_size ≤ st.i_buf + 1
      · rw [if_pos hwrap] at h
        have := ih _ _ h (by simpa using h1) (Or.inr rfl)
        exact ⟨this.1, this.2.1, this.2.2⟩
      · rw [if_neg hwrap] at h
        have := ih _ _ h (by simpa using h1)
          (Or.inl (show st.i_buf + 1 < st.line_size by omega))
        exact ⟨this.1, this.2.1, this.2.2⟩
    · rw [if_neg hib] at h
      exact Except.noConfusion h

/-- With a positive `line_size` and the invariant, the write loop always
succeeds (every store is in bounds). -/
lemma writeBytes_ok : ∀ (bs : List Nat) (st : DecState),
    0 < st.line_size →
    st.buffer.length = st.line_size →
    (st.i_buf < st.line_size ∨ st.i_buf = 0) →
    ∃ st2, writeBytes bs st = .ok st2 ∧ st2.buffer.length = st2.line_size ∧
      (st2.i_buf < st2.line_size ∨ st2.i_buf = 0) ∧ st2.line_size = st.line_size := by
  intro bs
  induction bs with
  | nil =>
    intro st h0 h1 h2
    exact ⟨st, rfl, h1, h2, rfl⟩
  | cons x xs ih =>
    intro st h0 h1 h2
    have hib : st.i_buf < st.buffer.length := by omega
    simp only [writeBytes, if_pos hib]
    by_cases hwrap : st.line_size ≤ st.i_buf + 1
    · rw [if_pos hwrap]
      obtain ⟨st2, hw, ha, hb, hc⟩ :=
        ih ⟨st.line_size, st.buffer.set st.i_buf x, 0, st.i_line + 1⟩ h0
          (by simpa using h1) (Or.inr rfl)
      exact ⟨st2, hw, ha, hb, hc⟩
    · rw [if_neg hwrap]
      obtain ⟨st2, hw, ha, hb, hc⟩ :=
        ih ⟨st.line_size, st.buffer.set st.i_buf x, st.i_buf + 1, st.i_line⟩ h0
          (by simpa using h1) (Or.inl (show st.i_buf + 1 < st.line_size by omega))
      exact ⟨st2, hw, ha, hb, hc⟩

/-- One-step unfolding of `decodeSteps` on a non-empty input. -/
lemma decodeSteps_cons (f : Nat) (st : DecState) (b : Nat) (rest : List Nat) :
    decodeSteps (f + 1) st (b :: rest) =
      match parseOp st.line_size st.i_buf b rest with
      | .error e => .error e
      | .ok p =>
        if p.eop then .ok ([], [])
        else
          let total_np := 248 * p.npx + p.np
          let old := (st.buffer.drop st.i_buf).take total_np
          let out := old ++ List.replicate p.nr p.rb ++ p.ub
          match writeBytes out st with
          | .error e => .error e
          | .ok st2 =>
            match decodeSteps f st2 p.rest with
            | .error e => .error e
            | .ok (outs, tr) =>
              .ok (out ++ outs, (st.i_buf, total_np, p.nr, p.ub.length) :: tr) := rfl

/-- Output length of a successful run: each opcode contributes the
truncated old-byte count `min total_np (line_size - i_buf)` plus `nr`
plus the literal count. -/
lemma decodeSteps_length : ∀ (fuel : Nat) (st : DecState) (input outs : List Nat)
    (tr : List (Nat × Nat × Nat × Nat)),
    st.buffer.length = st.line_size →
    (st.i_buf < st.line_size ∨ st.i_buf = 0) →
    decodeSteps fuel st input = .ok (outs, tr) →
    outs.length =
      (tr.map (fun e => min e.2.1 (st.line_size - e.1) + e.2.2.1 + e.2.2.2)).sum := by
  intro fuel
  induction fuel with
  | zero =>
    intro st input outs tr h1 h2 h
    cases input with
    | nil => simp only [decodeSteps] at h; cases h; simp
    | cons b rest => simp only [decodeSteps] at h; cases h
  | succ f ih =>
    intro st input outs tr h1 h2 h
    cases input with
    | nil => simp only [decodeSteps] at h; cases h; simp
    | cons b rest =>
      rw [decodeSteps_cons] at h
      cases hp : parseOp st.line_size st.i_buf b rest with
      | error e => simp only [hp] at h; exact Except.noConfusion h
      | ok p =>
        simp only [hp] at h
        by_cases he : p.eop = true
        · simp only [if_pos he] at h
          cases h; simp
        · simp only [if_neg he] at h
          cases hw : writeBytes
              ((st.buffer.drop st.i_buf).take (248 * p.npx + p.np) ++
                List.replicate p.nr p.rb ++ p.ub) st with
          | error e => simp only [hw] at h; exact Except.noConfusion h
          | ok st2 =>
            simp only [hw] at h
            cases hd : decodeSteps f st2 p.rest with
            | error e => simp only [hd] at h; exact Except.noConfusion h
            | ok r =>
              obtain ⟨outs2, tr2⟩ := r
              simp only [hd] at h
              cases h
              obtain ⟨ha, hb, hc⟩ := writeBytes_inv _ _ _ hw h1 h2
              have hrec := ih st2 p.rest outs2 tr2 ha hb hd
              simp only [List.map_cons, List.sum_cons, List.length_append,
                List.length_take, List.length_drop, List.length_replicate, hc] at hrec ⊢
              omega

/-- The defensive REPEAT+NEW branch (scoa.py lines 196-208) for a
symbolic opcode byte: when `nr = 0` or `nu = 0` the input is held back
and the op expands to `nr` repeats of the default `rb = 0` plus `nu`
zero literals. -/
lemma parseOp_repeat_new_defensive (ls ib b : Nat) (rest : List Nat)
    (hb : b &&& 0xC0 = 0xC0)
    (hz : ¬(0 < (b &&& UINT_3_MASK_HI) >>> 3 ∧ 0 < b &&& UINT_3_MASK_LO)) :
    parseOp ls ib b rest =
      .ok { nr := (b &&& UINT_3_MASK_HI) >>> 3,
            ub := List.replicate (b &&& UINT_3_MASK_LO) 0, rest := rest } := by
  have h40 : ¬(b = 0x40) := by rintro rfl; exact absurd hb (by decide)
  have h41 : ¬(b = 0x41) := by rintro rfl; exact absurd hb (by decide)
  have h42 : ¬(b = 0x42) := by rintro rfl; exact absurd hb (by decide)
  have h00 : ¬(b &&& 0xC0 = 0x00) := by intro h; rw [h] at hb; exact absurd hb (by decide)
  have h04 : ¬(b &&& 0xC0 = 0x40) := by intro h; rw [h] at hb; exact absurd hb (by decide)
  unfold parseOp
  rw [if_neg h40, if_neg h41, if_neg h42, if_neg h00, if_neg h04, if_pos hb, if_neg hz]

/-- C2 amended, part of the proof work: a single REPEAT+NEW opcode with
a zero count, decoded on a fresh decoder, consumes nothing further and
emits `nr + nu` zero bytes. -/
theorem scoa_repeat_new_zero_counts (b ls iv : Nat)
    (hb : b &&& 0xC0 = 0xC0)
    (hz : (b &&& UINT_3_MASK_HI) >>> 3 = 0 ∨ b &&& UINT_3_MASK_LO = 0)
    (hls : 0 < ls) :
    decode (initState ls iv) [b] =
      .ok (List.replicate (((b &&& UINT_3_MASK_HI) >>> 3) + (b &&& UINT_3_MASK_LO)) 0) := by
  have hz2 : ¬(0 < (b &&& UINT_3_MASK_HI) >>> 3 ∧ 0 < b &&& UINT_3_MASK_LO) := by omega
  have hlen : [b].length = 0 + 1 := rfl
  unfold decode
  rw [hlen, decodeSteps_cons, parseOp_repeat_new_defensive _ _ _ _ hb hz2]
  have hst : (initState ls iv).buffer.length = (initState ls iv).line_size := by
    simp [initState]
  obtain ⟨st2, hw, -, -, -⟩ :=
    writeBytes_ok ((((initState ls iv).buffer.drop (initState ls iv).i_buf).take
        (248 * 0 + 0)) ++ List.replicate ((b &&& UINT_3_MASK_HI) >>> 3) 0 ++
        List.replicate (b &&& UINT_3_MASK_LO) 0)
      (initState ls iv) hls hst (Or.inr rfl)
  simp only [hw]
  simp only [decodeSteps, Except.map]
  rw [List.replicate_add]
  simp

/-! ## Claim C2 -/

/-- C2 counterexample: the REPEAT+NEW opcode byte 0xC8 has `n_rep = 1`
and `n_new = 0`, yet decoding it emits one byte (a zero), not the zero
bytes the claim predicts (`n_new = 0`). -/
theorem repeat_new_c8_emits_one_byte :
    decode (initState 8 240) [0xC8] = .ok [0] ∧
      (0xC8 : Nat) &&& 0xC0 = 0xC0 ∧
      ((0xC8 : Nat) &&& UINT_3_MASK_HI) >>> 3 = 1 ∧
      (0xC8 : Nat) &&& UINT_3_MASK_LO = 0 := by
  refine ⟨?_, by decide, by decide, by decide⟩
  rfl

/-- C2 (corrected): for every REPEAT+NEW opcode byte (two-bit prefix 11)
with `n_rep = 0` or `n_new = 0`, the decoder consumes no repeat byte and
no literal bytes from the input, and emits exactly `n_rep + n_new` zero
bytes (the repeat byte defaults to zero, and the retained repeat count
still expands). -/
theorem repeat_new_zero_counts_emit_zeroes (b ls iv : Nat)
    (hb : b &&& 0xC0 = 0xC0)
    (hz : (b &&& UINT_3_MASK_HI) >>> 3 = 0 ∨ b &&& UINT_3_MASK_LO = 0)
    (hls : 0 < ls) :
    (∀ ib rest, parseOp ls ib b rest =
        .ok { nr := (b &&& UINT_3_MASK_HI) >>> 3,
              ub := List.replicate (b &&& UINT_3_MASK_LO) 0, rest := rest }) ∧
    decode (initState ls iv) [b] =
      .ok (List.replicate (((b &&& UINT_3_MASK_HI) >>> 3) + (b &&& UINT_3_MASK_LO)) 0) := by
  refine ⟨fun ib rest => parseOp_repeat_new_defensive ls ib b rest hb (by omega), ?_⟩
  exact scoa_repeat_new_zero_counts b ls iv hb hz hls

/-- C2 witness: opcode 0xD0 (`n_rep = 2`, `n_new = 0`) on a fresh
line-size-4 decoder. -/
theorem repeat_new_zero_counts_emit_zeroes_witness :
    decode (initState 4 7) [0xD0] =
      .ok (List.replicate ((((0xD0 : Nat) &&& UINT_3_MASK_HI) >>> 3) +
        ((0xD0 : Nat) &&& UINT_3_MASK_LO)) 0) :=
  (repeat_new_zero_counts_emit_zeroes 0xD0 4 7 (by decide) (Or.inr (by decide))
    (by decide)).2

/-! ## Claim C3 -/

/-- C3 counterexample: on a `line_size = 8` decoder, the two-byte
OLD_LONG opcode `82 00` decodes to `n_prev = 16`, `n_rep = 0`,
`n_new = 0`, but only 8 bytes are emitted (the back-reference slice
`_buffer[_i_buf : _i_buf + np]` truncates at the end of the line
buffer), so the output length differs from `n_prev + n_rep + n_new`. -/
theorem old_long_output_shorter_than_counts :
    decodeSteps 2 (initState 8 5) [0x82, 0x00] =
      .ok (List.replicate 8 5, [(0, 16, 0, 0)]) ∧
      (List.replicate 8 5 : List Nat).length ≠ 16 + 0 + 0 := by
  refine ⟨?_, by decide⟩
  rfl

/-- C3 (corrected): on success, the number of bytes yielded by
`SCoADecoder.decode` equals the sum over executed opcodes of
`min n_prev (line_size - i_buf) + n_rep + n_new`, where `i_buf` is the
line position when the opcode ran and `n_prev` includes the `248 × npx`
OLD_LONG extension — i.e. the claimed identity holds except that each
opcode's `n_prev` contribution is truncated to the end of the line. -/
theorem scoa_output_length_sum (ls iv : Nat) (input outs : List Nat)
    (tr : List (Nat × Nat × Nat × Nat))
    (h : decodeSteps input.length (initState ls iv) input = .ok (outs, tr)) :
    outs.length =
      (tr.map (fun e => min e.2.1 (ls - e.1) + e.2.2.1 + e.2.2.2)).sum := by
  have := decodeSteps_length input.length (initState ls iv) input outs tr
    (by simp [initState]) (Or.inr rfl) h
  simpa [initState] using this

/-- C3 witness: OLD+NEW opcode `38` with seven literal bytes on a fresh
line-size-8 decoder. -/
theorem scoa_output_length_sum_witness :
    ([0, 1, 2, 3, 4, 5, 6] : List Nat).length =
      (([(0, 0, 0, 7)] : List (Nat × Nat × Nat × Nat)).map
        (fun e => min e.2.1 (8 - e.1) + e.2.2.1 + e.2.2.2)).sum :=
  scoa_output_length_sum 8 240 [0x38, 0, 1, 2, 3, 4, 5, 6] [0, 1, 2, 3, 4, 5, 6]
    [(0, 0, 0, 7)] (by rfl)

/-! ## Claim C1 -/

/-- Parsing `BF F8` followed by 255 payload bytes: REPEAT_LONG prefix
with the OLD+NEW_LONG sub-opcode, giving `n_prev = 0`, `n_rep = 0`,
`n_new = 248 ||| 7 = 255` literal bytes. -/
lemma parseOp_BF (ls ib : Nat) (pay rest : List Nat) (h : pay.length = 255) :
    parseOp ls ib 0xBF (0xF8 :: (pay ++ rest)) =
      Except.ok { np := 0, ub := pay, rest := rest } := by
  show (if (255 : Nat) ≤ (pay ++ rest).length then
      (Except.ok { np := 0, ub := (pay ++ rest).take 255, rest := (pay ++ rest).drop 255 } :
        Except DecErr ParsedOp)
    else Except.error DecErr.unexpectedEnd) = _
  rw [if_pos (by simp [h]), ← h, List.take_left, List.drop_left]

/-- Parsing `BD D8` followed by 235 payload bytes: REPEAT_LONG prefix
with the OLD+NEW_LONG sub-opcode, giving `n_prev = 0`, `n_rep = 0`,
`n_new = 232 ||| 3 = 235` literal bytes. -/
lemma parseOp_BD (ls ib : Nat) (pay rest : List Nat) (h : pay.length = 235) :
    parseOp ls ib 0xBD (0xD8 :: (pay ++ rest)) =
      Except.ok { np := 0, ub := pay, rest := rest } := by
  show (if (235 : Nat) ≤ (pay ++ rest).length then
      (Except.ok { np := 0, ub := (pay ++ rest).take 235, rest := (pay ++ rest).drop 235 } :
        Except DecErr ParsedOp)
    else Except.error DecErr.unexpectedEnd) = _
  rw [if_pos (by simp [h]), ← h, List.take_left, List.drop_left]

/-- One decode step for an opcode that parses to a pure literal copy
(`np = nr = 0`): the payload is emitted verbatim and decoding continues
in some state that still satisfies the buffer invariant. -/
lemma decodeSteps_lit_step (f : Nat) (st : DecState) (b : Nat)
    (brest pay rest : List Nat)
    (hp : parseOp st.line_size st.i_buf b brest = .ok { np := 0, ub := pay, rest := rest })
    (hls : 0 < st.line_size)
    (hbl : st.buffer.length = st.line_size)
    (hib : st.i_buf < st.line_size ∨ st.i_buf = 0) :
    ∃ st2, (0 < st2.line_size ∧ st2.buffer.length = st2.line_size ∧
        (st2.i_buf < st2.line_size ∨ st2.i_buf = 0)) ∧
      decodeSteps (f + 1) st (b :: brest) =
        (decodeSteps f st2 rest).map
          (fun r => (pay ++ r.1, (st.i_buf, 0, 0, pay.length) :: r.2)) := by
  obtain ⟨st2, hw, ha, hb2, hc⟩ := writeBytes_ok pay st hls hbl hib
  refine ⟨st2, ⟨by omega, ha, hb2⟩, ?_⟩
  rw [decodeSteps_cons, hp]
  cases hdr : decodeSteps f st2 rest with
  | error e => simp [hw, hdr, Except.map]
  | ok r => obtain ⟨o, t⟩ := r; simp [hw, hdr, Except.map]

/-- The input stream of claim C1: four REPEAT_LONG / OLD+NEW_LONG
packets carrying 255+255+255+235 = 1000 literal bytes. -/
def c1input : List Nat :=
  0xBF :: 0xF8 :: (List.replicate 255 0x0A ++
    (0xBF :: 0xF8 :: (List.replicate 255 0x0B ++
      (0xBF :: 0xF8 :: (List.replicate 255 0x0C ++
        (0xBD :: 0xD8 :: (List.replicate 235 0x0D ++ [])))))))

/-- C1 (confirmed): on a decoder with `line_size = 1000`, the stream
`BF F8 <0A×255> BF F8 <0B×255> BF F8 <0C×255> BD D8 <0D×235>` decodes to
exactly `0A×255 0B×255 0C×255 0D×235` — the REPEAT_LONG prefix followed
by the OLD+NEW_LONG sub-opcode acts as a pure long-literal copy. -/
theorem scoa_new_long_literal_run :
    decode (initState 1000 0) c1input =
      .ok (List.replicate 255 0x0A ++ List.replicate 255 0x0B ++
        List.replicate 255 0x0C ++ List.replicate 235 0x0D) := by
  have hlen : c1input.length = 1008 := by
    simp only [c1input, List.length_cons, List.length_append, List.length_replicate,
      List.length_nil]
  unfold decode
  rw [hlen]
  unfold c1input
  rw [show (1008 : Nat) = 1007 + 1 from rfl]
  obtain ⟨st1, ⟨hp1, ha1, hb1⟩, hs1⟩ := decodeSteps_lit_step 1007 (initState 1000 0)
    0xBF _ (List.replicate 255 0x0A) _
    (parseOp_BF _ _ (List.replicate 255 0x0A) _ (by rw [List.length_replicate])) (by decide)
    (by simp only [initState, List.length_replicate]) (Or.inr rfl)
  rw [hs1, show (1007 : Nat) = 1006 + 1 from rfl]
  obtain ⟨st2, ⟨hp2, ha2, hb2⟩, hs2⟩ := decodeSteps_lit_step 1006 st1
    0xBF _ (List.replicate 255 0x0B) _
    (parseOp_BF _ _ (List.replicate 255 0x0B) _ (by rw [List.length_replicate])) hp1 ha1 hb1
  rw [hs2, show (1006 : Nat) = 1005 + 1 from rfl]
  obtain ⟨st3, ⟨hp3, ha3, hb3⟩, hs3⟩ := decodeSteps_lit_step 1005 st2
    0xBF _ (List.replicate 255 0x0C) _
    (parseOp_BF _ _ (List.replicate 255 0x0C) _ (by rw [List.length_replicate])) hp2 ha2 hb2
  rw [hs3, show (1005 : Nat) = 1004 + 1 from rfl]
  obtain ⟨st4, ⟨hp4, ha4, hb4⟩, hs4⟩ := decodeSteps_lit_step 1004 st3
    0xBD _ (List.replicate 235 0x0D) _
    (parseOp_BD _ _ (List.replicate 235 0x0D) _ (by rw [List.length_replicate])) hp3 ha3 hb3
  rw [hs4, show decodeSteps 1004 st4 [] = .ok ([], []) from rfl]
  simp only [Except.map, List.append_nil, List.append_assoc]

/-! ## Claim C7: SCoADecoder.__init__ (scoa.py lines 91-122) -/

/-- Python exception classes raised by the constructor.  `typeError`
covers both the `init_value` type check and the `ord(b'')` call on an
empty init value (scoa.py line 117); `valueError` is the explicit
`len(initv) > 1` check.  The `line_size` argument is typed `Int` because
the source only checks `type(line_size) is int` — no sign or magnitude
check exists; `[x] * n` with `n ≤ 0` builds an empty buffer, modelled by
`Int.toNat`. -/
inductive InitErr where
  | typeError : InitErr
  | valueError : InitErr
deriving Repr, DecidableEq

/-- `SCoADecoder.__init__(line_size, init_value)` with `init_value` a
bytes object, modelled as a list of byte values. -/
def SCoADecoder_init (line_size : Int) (init_value : List Nat) :
    Except InitErr DecState :=
  if 1 < init_value.length then .error .valueError
  else
    match init_value with
    | [] => .error .typeError
    | v :: _ =>
      .ok { line_size := line_size.toNat, buffer := List.replicate line_size.toNat v,
            i_buf := 0, i_line := 0 }

/-- C7 counterexample: constructing a decoder with `line_size = 0` (and
the default one-byte fill) succeeds — no `InvalidConfiguration` error is
raised for a non-positive line size. -/
theorem init_accepts_zero_line_size :
    SCoADecoder_init 0 [0] = .ok (initState 0 0) ∧
      SCoADecoder_init (-5) [0] = .ok (initState 0 0) := by
  constructor <;> rfl

/-- C7 (corrected): construction fails exactly when the init fill value
is not a single byte (a multi-byte fill raises `ValueError`, an empty
fill raises `TypeError` from `ord`); any integer `line_size`, including
zero and negative values, is accepted. -/
theorem init_ok_iff_one_byte_fill (line_size : Int) (init_value : List Nat) :
    (∃ st, SCoADecoder_init line_size init_value = .ok st) ↔ init_value.length = 1 := by
  match init_value with
  | [] => simp [SCoADecoder_init]
  | [v] =>
    simp only [SCoADecoder_init, List.length_singleton]
    norm_num
  | v :: w :: t =>
    simp only [SCoADecoder_init, List.length_cons]
    rw [if_pos (by omega)]
    simp

/-! ## CAPT packet scanner (captstream.py, CAPTStream._packet_first_offsets) -/

/-- The body of `_packet_first_offsets` (captstream.py lines 164-188).
State: `i_op` is the index of the opcode currently sought, `i` the
running input position (an `Int`: the source updates it by
`vskip + 2` where `vskip = WORD(vl, vh) - 4 or 1` may be negative),
`offsets` the partially filled tuple, `lastb` the previous byte of the
rolling two-byte window.  Returns the yielded offset tuples together
with an event trace recording, for each matched packet,
`(recorded offset, declared length L, number of payload bytes actually
skipped)`.  A `next()` call on an exhausted source inside the generator
(reading `vl`/`vh` or skipping payload, PEP 479) makes the run fail.
Fuel is consumed once per loop iteration; `s.length` is always enough. -/
def scanLoop (fuel : Nat) (ops : List (Nat × Nat)) (bias : Int) (i_op : Nat) (i : Int)
    (offsets : List Int) (lastb : Nat) (s : List Nat) :
    Except Unit (List (List Int) × List (Int × Nat × Nat)) :=
  match fuel, s with
  | _, [] => .ok ([], [])
  | 0, _ :: _ => .error ()
  | fuel + 1, x :: rest =>
    match ops.get? i_op with
    | none => .error ()  -- opcodes[i_op] on an empty opcode list: IndexError
    | some op =>
      if (lastb, x) = op then
        let off := i - 1 + bias
        let offsets1 := offsets.set i_op off
        match rest with
        | vl :: vh :: rest2 =>
          let L := WORD vl vh
          let vskip : Int := if L = 4 then 1 else (L : Int) - 4
          let m := vskip.toNat
          if m ≤ rest2.length then
            match scanLoop fuel ops bias ((i_op + 1) % ops.length) (i + vskip + 3)
                (if ops.length - 1 ≤ i_op then List.replicate ops.length 0 else offsets1)
                x (rest2.drop m) with
            | .error e => .error e
            | .ok (ts, es) =>
              .ok ((if ops.length - 1 ≤ i_op then offsets1 :: ts else ts),
                (off, L, m) :: es)
          else .error ()
        | _ => .error ()
      else scanLoop fuel ops bias i_op (i + 1) offsets x rest

/-- `CAPTStream._packet_first_offsets(b, opcodes, bias)`: prime the
rolling window with the first byte (`last_byte = next(b)`, which fails
on an empty source), then run the scan loop with `i = 1`, `i_op = 0` and
a zero-filled tuple. -/
def packet_first_offsets (ops : List (Nat × Nat)) (bias : Int) (s : List Nat) :
    Except Unit (List (List Int) × List (Int × Nat × Nat)) :=
  match s with
  | [] => .error ()
  | b :: rest => scanLoop rest.length ops bias 0 1 (List.replicate ops.length 0) b rest

/-! ## Claim C4 -/

/-- Every event of a successful scan records as skipped-byte count
exactly `1` when the declared length is 4 and `L - 4` otherwise (zero
for `L < 4`, since `range` over a negative `vskip` is empty). -/
lemma scanLoop_skip_counts : ∀ (fuel : Nat) (ops : List (Nat × Nat)) (bias : Int)
    (i_op : Nat) (i : Int) (offsets : List Int) (lastb : Nat) (s : List Nat)
    (ts : List (List Int)) (es : List (Int × Nat × Nat)),
    scanLoop fuel ops bias i_op i offsets lastb s = .ok (ts, es) →
    ∀ ev ∈ es, ev.2.2 = if ev.2.1 = 4 then 1 else ev.2.1 - 4 := by
  intro fuel
  induction fuel with
  | zero =>
    intro ops bias i_op i offsets lastb s ts es h ev hev
    cases s with
    | nil => simp only [scanLoop] at h; cases h; simp at hev
    | cons x rest => simp only [scanLoop] at h; exact Except.noConfusion h
  | succ f ih =>
    intro ops bias i_op i offsets lastb s ts es h ev hev
    cases s with
    | nil => simp only [scanLoop] at h; cases h; simp at hev
    | cons x rest =>
      simp only [scanLoop] at h
      cases hop : ops.get? i_op with
      | none => rw [hop] at h; exact Except.noConfusion h
      | some op =>
        simp only [hop] at h
        by_cases hmatch : (lastb, x) = op
        · rw [if_pos hmatch] at h
          match rest with
          | [] => exact Except.noConfusion h
          | [vl] => exact Except.noConfusion h
          | vl :: vh :: rest2 =>
            dsimp only at h
            by_cases hskip :
              (if WORD vl vh = 4 then (1 : Int) else (WORD vl vh : Int) - 4).toNat ≤
                rest2.length
            · rw [if_pos hskip] at h
              cases hrec : scanLoop f ops bias ((i_op + 1) % ops.length)
                  (i + (if WORD vl vh = 4 then (1 : Int) else (WORD vl vh : Int) - 4) + 3)
                  (if ops.length - 1 ≤ i_op then List.replicate ops.length 0
                    else offsets.set i_op (i - 1 + bias))
                  x (rest2.drop
                    (if WORD vl vh = 4 then (1 : Int) else
                      (WORD vl vh : Int) - 4).toNat) with
              | error e => rw [hrec] at h; exact Except.noConfusion h
              | ok r =>
                obtain ⟨ts2, es2⟩ := r
                rw [hrec] at h
                cases h
                rcases List.mem_cons.mp hev with rfl | hev2
                · simp only []
                  generalize WORD vl vh = L
                  split_ifs with h4
                  · subst h4; rfl
                  · omega
                · exact ih _ _ _ _ _ _ _ _ _ hrec ev hev2
            · rw [if_neg hskip] at h; exact Except.noConfusion h
        · rw [if_neg hmatch] at h
          exact ih _ _ _ _ _ _ _ _ _ h ev hev

/-- C4 counterexample: with a matched packet declaring `L = 0` the
scanner advances zero payload bytes (not one), and with `L = 4` it
advances one byte (not `L - 4 = 0`): the special case in
`vskip = WORD(vl, vh) - 4 or 1` is `L = 4`, not `L = 0`. -/
theorem scan_skip_l0_l4 :
    packet_first_offsets [(0xA0, 0xD0)] 0 [0xA0, 0xD0, 0x00, 0x00] =
      .ok ([[0]], [(0, 0, 0)]) ∧
    packet_first_offsets [(0xA0, 0xD0)] 0 [0xA0, 0xD0, 0x04, 0x00, 0xFF, 0xFF] =
      .ok ([[0]], [(0, 4, 1)]) := by
  constructor <;> rfl

/-- C4 (corrected): in every successful scan, after reading a matched
packet's declared little-endian length `L` the scanner advances the
source past exactly `L - 4` payload bytes when `L ≥ 4` — except that
`L = 4` advances one byte instead of zero — and past zero bytes when
`L < 4` (the `or 1` special case in the source fires at `L = 4`, where
`WORD(vl, vh) - 4` is falsy, not at `L = 0`). -/
theorem scan_skip_counts (ops : List (Nat × Nat)) (bias : Int) (s : List Nat)
    (ts : List (List Int)) (es : List (Int × Nat × Nat))
    (h : packet_first_offsets ops bias s = .ok (ts, es)) :
    ∀ ev ∈ es, ev.2.2 = if ev.2.1 = 4 then 1 else ev.2.1 - 4 := by
  cases s with
  | nil => exact Except.noConfusion h
  | cons b rest =>
    exact scanLoop_skip_counts rest.length ops bias 0 1 (List.replicate ops.length 0)
      b rest ts es h

/-- C4 witness: a single packet with declared length 5 skips one payload
byte. -/
theorem scan_skip_counts_witness :
    packet_first_offsets [(0xA0, 0xD0)] 0 [0xA0, 0xD0, 0x05, 0x00, 0x99] =
      .ok ([[0]], [(0, 5, 1)]) ∧
    ∀ ev ∈ [((0 : Int), 5, 1)], ev.2.2 = if ev.2.1 = 4 then 1 else ev.2.1 - 4 :=
  ⟨rfl, scan_skip_counts [(0xA0, 0xD0)] 0 [0xA0, 0xD0, 0x05, 0x00, 0x99]
    [[0]] [(0, 5, 1)] rfl⟩

/-! ## Claim C8 -/

/-- The head of a non-empty list is a member. -/
lemma headI_mem_of_ne_nil {l : List Int} (h : l ≠ []) : l.headI ∈ l := by
  cases l with
  | nil => exact absurd rfl h
  | cons a t => simp

/-- A strictly increasing flattening gives strictly increasing heads. -/
lemma pairwise_headI_of_flatten : ∀ (l : List (List Int)),
    (∀ t ∈ l, t ≠ []) → l.flatten.Pairwise (· < ·) →
    (l.map List.headI).Pairwise (· < ·) := by
  intro l
  induction l with
  | nil => intro _ _; simp
  | cons t l2 ih =>
    intro hne hp
    rw [List.flatten_cons, List.pairwise_append] at hp
    obtain ⟨hpt, hpl, hcross⟩ := hp
    rw [List.map_cons, List.pairwise_cons]
    refine ⟨?_, ih (fun u hu => hne u (List.mem_cons_of_mem _ hu)) hpl⟩
    intro a ha
    obtain ⟨t2, ht2, rfl⟩ := List.mem_map.mp ha
    have ht2ne : t2 ≠ [] := hne t2 (List.mem_cons_of_mem _ ht2)
    exact hcross t.headI (headI_mem_of_ne_nil (hne t (List.mem_cons_self _ _)))
      t2.headI (List.mem_flatten.mpr ⟨t2, ht2, headI_mem_of_ne_nil ht2ne⟩)

/-- Scan-loop invariant: in a successful run in which every matched
packet declares a length `L ≥ 4`, the flattened recorded offsets are
strictly increasing; every offset comes either from the partially filled
tuple handed in or is at least the current window offset `i - 1 + bias`;
and every emitted tuple is non-empty. -/
lemma scanLoop_offsets_mono : ∀ (fuel : Nat) (ops : List (Nat × Nat)) (bias : Int)
    (i_op : Nat) (i : Int) (offsets : List Int) (lastb : Nat) (s : List Nat)
    (ts : List (List Int)) (es : List (Int × Nat × Nat)),
    scanLoop fuel ops bias i_op i offsets lastb s = .ok (ts, es) →
    (∀ ev ∈ es, 4 ≤ ev.2.1) →
    offsets.length = ops.length →
    (offsets.take i_op).Pairwise (· < ·) →
    (∀ o ∈ offsets.take i_op, o < i - 1 + bias) →
    ts.flatten.Pairwise (· < ·) ∧
      (∀ o ∈ ts.flatten, o ∈ offsets.take i_op ∨ i - 1 + bias ≤ o) ∧
      (∀ t ∈ ts, t ≠ []) := by
  intro fuel
  induction fuel with
  | zero =>
    intro ops bias i_op i offsets lastb s ts es h hL hlen hpw hbd
    cases s with
    | nil => simp only [scanLoop] at h; cases h; simp
    | cons x rest => simp only [scanLoop] at h; exact Except.noConfusion h
  | succ f ih =>
    intro ops bias i_op i offsets lastb s ts es h hL hlen hpw hbd
    cases s with
    | nil => simp only [scanLoop] at h; cases h; simp
    | cons x rest =>
      simp only [scanLoop] at h
      cases hop : ops.get? i_op with
      | none => rw [hop] at h; exact Except.noConfusion h
      | some op =>
        simp only [hop] at h
        by_cases hmatch : (lastb, x) = op
        · rw [if_pos hmatch] at h
          match rest with
          | [] => exact Except.noConfusion h
          | [vl] => exact Except.noConfusion h
          | vl :: vh :: rest2 =>
            dsimp only at h
            by_cases hskip :
              (if WORD vl vh = 4 then (1 : Int) else (WORD vl vh : Int) - 4).toNat ≤
                rest2.length
            · rw [if_pos hskip] at h
              cases hrec : scanLoop f ops bias ((i_op + 1) % ops.length)
                  (i + (if WORD vl vh = 4 then (1 : Int) else (WORD vl vh : Int) - 4) + 3)
                  (if ops.length - 1 ≤ i_op then List.replicate ops.length 0
                    else offsets.set i_op (i - 1 + bias))
                  x (rest2.drop
                    (if WORD vl vh = 4 then (1 : Int) else
                      (WORD vl vh : Int) - 4).toNat) with
              | error e => rw [hrec] at h; exact Except.noConfusion h
              | ok r =>
                obtain ⟨ts2, es2⟩ := r
                rw [hrec] at h
                cases h
                -- the recorded event has L ≥ 4, so the i-advance is positive
                have hL4 : 4 ≤ WORD vl vh := hL _ (List.mem_cons_self _ _)
                have hLtail : ∀ ev ∈ es2, 4 ≤ ev.2.1 :=
                  fun ev hev => hL ev (List.mem_cons_of_mem _ hev)
                have hvs : 1 ≤ (if WORD vl vh = 4 then (1 : Int) else (WORD vl vh : Int) - 4) := by
                  split_ifs with h4
                  · omega
                  · omega
                have hiop : i_op < ops.length := by
                  have := List.get?_eq_some.mp hop
                  exact this.1
                by_cases hemit : ops.length - 1 ≤ i_op
                · -- emission: the completed tuple is yielded, fresh tuple and i_op = 0
                  rw [if_pos hemit] at hrec
                  simp only [if_pos hemit] at *
                  have hiop2 : i_op = ops.length - 1 := by omega
                  have hmod : (i_op + 1) % ops.length = 0 := by
                    have : i_op + 1 = ops.length := by omega
                    rw [this, Nat.mod_self]
                  rw [hmod] at hrec
                  obtain ⟨hpw2, hbd2, hne2⟩ := ih _ _ _ _ _ _ _ _ _ hrec hLtail
                    (by simp) (by simp) (by simp)
                  have hset : offsets.set i_op (i - 1 + bias) =
                      offsets.take i_op ++ [i - 1 + bias] := by
                    rw [List.set_eq_take_cons_drop _ (by omega)]
                    rw [List.drop_eq_nil_of_le (by omega)]
                  have hT : (offsets.take i_op ++ [i - 1 + bias]).Pairwise (· < ·) := by
                    rw [List.pairwise_append]
                    exact ⟨hpw, List.pairwise_singleton _ _,
                      fun a ha b hb => by
                        rw [List.mem_singleton] at hb; subst hb; exact hbd a ha⟩
                  have hbelow : ∀ a ∈ offsets.take i_op ++ [i - 1 + bias],
                      a ≤ i - 1 + bias := by
                    intro a ha
                    rcases List.mem_append.mp ha with ha | ha
                    · exact le_of_lt (hbd a ha)
                    · rw [List.mem_singleton] at ha; omega
                  have habove : ∀ o ∈ ts2.flatten, i - 1 + bias < o := by
                    intro o ho
                    rcases hbd2 o ho with hc | hc
                    · simp at hc
                    · omega
                  refine ⟨?_, ?_, ?_⟩
                  · rw [List.flatten_cons, List.pairwise_append, hset]
                    refine ⟨hT, hpw2, fun a ha b hb => ?_⟩
                    calc a ≤ i - 1 + bias := hbelow a ha
                      _ < b := habove b hb
                  · intro o ho
                    rw [List.flatten_cons, List.mem_append, hset] at ho
                    rcases ho with ho | ho
                    · rcases List.mem_append.mp ho with ho | ho
                      · exact Or.inl ho
                      · rw [List.mem_singleton] at ho; omega
                    · exact Or.inr (le_of_lt (habove o ho))
                  · intro t ht
                    rcases List.mem_cons.mp ht with rfl | ht
                    · rw [hset]; simp
                    · exact hne2 t ht
                · -- no emission: the partial tuple grows by one slot
                  rw [if_neg hemit] at hrec
                  simp only [if_neg hemit] at *
                  have hmod : (i_op + 1) % ops.length = i_op + 1 :=
                    Nat.mod_eq_of_lt (by omega)
                  rw [hmod] at hrec
                  have hset : (offsets.set i_op (i - 1 + bias)).take (i_op + 1) =
                      offsets.take i_op ++ [i - 1 + bias] := by
                    rw [List.set_eq_take_cons_drop _ (by omega)]
                    have hlt : (offsets.take i_op).length = i_op := by
                      rw [List.length_take]; omega
                    calc (offsets.take i_op ++ (i - 1 + bias) ::
                          offsets.drop (i_op + 1)).take (i_op + 1)
                        = (offsets.take i_op ++ (i - 1 + bias) ::
                          offsets.drop (i_op + 1)).take ((offsets.take i_op).length + 1) := by
                          rw [hlt]
                      _ = offsets.take i_op ++
                          ((i - 1 + bias) :: offsets.drop (i_op + 1)).take 1 :=
                          List.take_append 1
                      _ = offsets.take i_op ++ [i - 1 + bias] := by simp
                  obtain ⟨hpw2, hbd2, hne2⟩ := ih _ _ _ _ _ _ _ _ _ hrec hLtail
                    (by simp [hlen]) (by
                      rw [hset, List.pairwise_append]
                      exact ⟨hpw, List.pairwise_singleton _ _,
                        fun a ha b hb => by
                          rw [List.mem_singleton] at hb; subst hb; exact hbd a ha⟩)
                    (by
                      intro o ho
                      rw [hset] at ho
                      rcases List.mem_append.mp ho with ho | ho
                      · have := hbd o ho; omega
                      · rw [List.mem_singleton] at ho; omega)
                  refine ⟨hpw2, ?_, hne2⟩
                  intro o ho
                  rcases hbd2 o ho with hc | hc
                  · rw [hset] at hc
                    rcases List.mem_append.mp hc with hc | hc
                    · exact Or.inl hc
                    · rw [List.mem_singleton] at hc; omega
                  · right; omega
            · rw [if_neg hskip] at h; exact Except.noConfusion h
        · rw [if_neg hmatch] at h
          obtain ⟨hpw2, hbd2, hne2⟩ := ih _ _ _ _ _ _ _ _ _ h hL hlen hpw
            (fun o ho => by have := hbd o ho; omega)
          refine ⟨hpw2, ?_, hne2⟩
          intro o ho
          rcases hbd2 o ho with hc | hc
          · exact Or.inl hc
          · right; omega

/-- C8 counterexample: a matched packet with declared length `L = 0`
makes `vskip = -4`, so the scanner's position bookkeeping runs backwards
and the very same offset 0 is recorded and emitted twice — the emitted
first-field offsets are not strictly increasing and an offset value
repeats. -/
theorem scan_repeats_offset_on_short_packet :
    packet_first_offsets [(0xA0, 0xD0)] 0
        [0xA0, 0xD0, 0x00, 0x00, 0xA0, 0xD0, 0x00, 0x00] =
      .ok ([[0], [0]], [(0, 0, 0), (0, 0, 0)]) ∧
    ¬ (([[0], [0]] : List (List Int)).flatten.Pairwise (· < ·)) ∧
    ¬ ((([[0], [0]] : List (List Int)).map List.headI).Pairwise (· < ·)) := by
  refine ⟨rfl, by decide, by decide⟩

/-- C8 (corrected): for every input stream and opcode cycle, provided
every matched packet of a successful scan declares a length `L ≥ 4`, the
offsets recorded across all emitted tuples are strictly increasing in
emission order (hence no offset value is ever emitted twice in any
field), and in particular the first-field offsets of successive tuples
are strictly increasing. -/
theorem scan_offsets_strictly_increasing (ops : List (Nat × Nat)) (bias : Int)
    (s : List Nat) (ts : List (List Int)) (es : List (Int × Nat × Nat))
    (h : packet_first_offsets ops bias s = .ok (ts, es))
    (hL : ∀ ev ∈ es, 4 ≤ ev.2.1) :
    ts.flatten.Pairwise (· < ·) ∧ (ts.map List.headI).Pairwise (· < ·) := by
  cases s with
  | nil => exact Except.noConfusion h
  | cons b rest =>
    obtain ⟨hpw, -, hne⟩ := scanLoop_offsets_mono rest.length ops bias 0 1
      (List.replicate ops.length 0) b rest ts es h hL (by simp) (by simp) (by simp)
    exact ⟨hpw, pairwise_headI_of_flatten ts hne hpw⟩

/-- C8 witness: two length-5 packets at offsets 0 and 5. -/
theorem scan_offsets_strictly_increasing_witness :
    (([[0], [5]] : List (List Int)).flatten.Pairwise (· < ·)) ∧
      ((([[0], [5]] : List (List Int)).map List.headI).Pairwise (· < ·)) :=
  scan_offsets_strictly_increasing [(0xA0, 0xD0)] 0
    [0xA0, 0xD0, 0x05, 0x00, 0x99, 0xA0, 0xD0, 0x05, 0x00, 0x99]
    [[0], [5]] [(0, 5, 1), (5, 5, 1)] rfl (by decide)

/-! ## CAPT packet extractor (captstream.py, CAPTStream.extract_packets) -/

/-- Python truthiness of the packet-count argument `n` (`None` and `0`
are falsy), as used in `k = n or -1` and `if n and i >= k`. -/
def nTruthy : Option Nat → Bool
  | none => false
  | some 0 => false
  | some (_ + 1) => true

/-- `k = n or -1`: the stop bound, `-1` when `n` is falsy. -/
def kOf : Option Nat → Int
  | none => -1
  | some 0 => -1
  | some (m + 1) => (m : Int) + 1

/-- The `for x in b` loop of `extract_packets` (captstream.py lines
214-232).  `lastb` is the rolling-window byte, `i` the number of target
packets already yielded.  Concatenates the yielded payload bytes; any
`next()` on an exhausted source inside the generator is an error.  Fuel
is consumed once per loop iteration; `s.length` always suffices. -/
def epLoop (fuel : Nat) (op : Nat × Nat) (ec : Option (Nat × Nat)) (n : Option Nat)
    (ye : Bool) (lastb : Nat) (i : Nat) (s : List Nat) : Except Unit (List Nat) :=
  match fuel, s with
  | _, [] => .ok []
  | 0, _ :: _ => .error ()
  | fuel + 1, x :: rest =>
    if nTruthy n = true ∧ kOf n ≤ (i : Int) then .ok []
    else
      let code := (lastb, x)
      let termi := ec = some code
      if code = op ∨ termi then
        match rest with
        | vl :: vh :: rest2 =>
          let vlen := ((WORD vl vh : Int) - 4).toNat
          if termi ∧ ¬ye then
            if vlen ≤ rest2.length then .ok [] else .error ()
          else
            if vlen ≤ rest2.length then
              if termi then .ok (rest2.take vlen)
              else
                match epLoop fuel op ec n ye x (i + 1) (rest2.drop vlen) with
                | .error e => .error e
                | .ok out => .ok (rest2.take vlen ++ out)
            else .error ()
        | _ => .error ()
      else epLoop fuel op ec n ye x i rest

/-- `CAPTStream.extract_packets(b, opcode, end_code, n, yield_end)`:
prime the window with `last_byte = next(b)` (failing on an empty
source), then run the loop with `i = 0`. -/
def extract_packets (s : List Nat) (op : Nat × Nat) (ec : Option (Nat × Nat))
    (n : Option Nat) (ye : Bool) : Except Unit (List Nat) :=
  match s with
  | [] => .error ()
  | b :: rest => epLoop rest.length op ec n ye b 0 rest

/-! ## Claim C10 -/

/-- `n = 0` and `n = None` drive `extract_packets` identically: both are
falsy in `k = n or -1` and in the `if n and i >= k` stop guard. -/
lemma epLoop_zero_eq_none : ∀ (fuel : Nat) (op : Nat × Nat) (ec : Option (Nat × Nat))
    (ye : Bool) (lastb i : Nat) (s : List Nat),
    epLoop fuel op ec (some 0) ye lastb i s = epLoop fuel op ec none ye lastb i s := by
  intro fuel
  induction fuel with
  | zero => intro op ec ye lastb i s; cases s <;> rfl
  | succ f ih =>
    intro op ec ye lastb i s
    cases s with
    | nil => rfl
    | cons x rest =>
      simp only [epLoop, nTruthy, Bool.false_eq_true, false_and, if_false, ih]

/-- C10 (confirmed): for every byte stream, target opcode, end opcode
and `yield_end` flag, `extract_packets` with `n = 0` yields exactly the
same result as with `n = None` — all target-packet payloads up to the
terminator, not the payloads of zero packets. -/
theorem extract_packets_zero_eq_none (s : List Nat) (op : Nat × Nat)
    (ec : Option (Nat × Nat)) (ye : Bool) :
    extract_packets s op ec (some 0) ye = extract_packets s op ec none ye := by
  cases s with
  | nil => rfl
  | cons b rest => exact epLoop_zero_eq_none rest.length op ec ye b 0 rest

/-! ## Raster dimensions (captstream.py, CAPTStream.extract_raster_dims) -/

def RASTER_LINE_WIDTH_OFFSET : Nat := 26
def RASTER_HEIGHT_OFFSET : Nat := 28

/-- `extract_raster_dims` composed with its one-packet extraction
(captstream.py lines 234-246).  The reader builds
`extract_packets(b, CAPT_RASTER_SETUP, None, n=1)` over the shared
iterator `b` and pulls exactly `RASTER_LINE_WIDTH_OFFSET + 4 = 30`
payload bytes from it (26 skipped, then two little-endian words).
Lazily, that consumes the window bytes up to the first `A0 D0` match,
the two length bytes, and the first 30 payload bytes of that packet,
leaving `b` positioned right after them — the returned list is the
remaining stream.  Since `end_code = None`, no terminator can match.  If
the matched packet declares fewer than 30 payload bytes, the one-packet
generator is exhausted before the reader has its 30 bytes and the
reader's `next()` raises; if the source itself runs dry, the `next()`
inside the generator raises (PEP 479); if no packet matches at all the
generator ends — all failures, collapsed into `.error`. -/
def dimsScan (fuel : Nat) (lastb : Nat) (s : List Nat) :
    Except Unit ((Nat × Nat) × List Nat) :=
  match fuel, s with
  | _, [] => .error ()
  | 0, _ :: _ => .error ()
  | fuel + 1, x :: rest =>
    if (lastb, x) = ((0xA0, 0xD0) : Nat × Nat) then
      match rest with
      | vl :: vh :: rest2 =>
        if 30 ≤ ((WORD vl vh : Int) - 4).toNat then
          if 30 ≤ rest2.length then
            .ok ((WORD ((rest2.take 30).getD 26 0) ((rest2.take 30).getD 27 0),
                  WORD ((rest2.take 30).getD 28 0) ((rest2.take 30).getD 29 0)),
              rest2.drop 30)
          else .error ()
        else .error ()
      | _ => .error ()
    else dimsScan fuel x rest

/-- `CAPTStream.extract_raster_dims(b)`: returns the
`(line byte width, height)` pair together with the stream remaining
after the 30 pulled payload bytes. -/
def extract_raster_dims (s : List Nat) : Except Unit ((Nat × Nat) × List Nat) :=
  match s with
  | [] => .error ()
  | b :: rest => dimsScan rest.length b rest

/-! ## Claim C5 -/

/-- A raster-setup packet whose payload disagrees, at payload offsets
22-23 versus 26-27, about the line width: payload byte 22 (packet offset
26) is 0x11 while payload byte 26 (packet offset 30) is 0x22. -/
def c5stream : List Nat :=
  [0xA0, 0xD0, 34, 0] ++ (List.replicate 22 0 ++ [0x11, 0, 0, 0, 0x22, 0, 0x33, 0])

/-- C5 counterexample: `extract_raster_dims` reports line width 0x22 =
34 and height 0x33 = 51, read at offsets 26 and 28 of the *payload*; the
little-endian word at byte offset 26 from the start of the packet's
4-byte header is 0x11 = 17 ≠ 34, so the claimed origin of the offsets is
wrong. -/
theorem raster_dims_not_at_header_offset_26 :
    extract_raster_dims c5stream = .ok ((34, 51), []) ∧
      WORD (c5stream.getD 26 0) (c5stream.getD 27 0) = 17 ∧ (17 : Nat) ≠ 34 := by
  refine ⟨rfl, rfl, by decide⟩

/-- C5 (corrected): for a raster-setup packet at the head of the stream
with declared length at least 34 and at least 30 payload bytes present,
`extract_raster_dims` returns the little-endian words at payload offsets
26 and 28 — that is, offsets 30 and 32 from the start of the packet's
4-byte header. -/
theorem raster_dims_at_payload_offset_26 (l1 l2 : Nat) (rest : List Nat)
    (hL : 34 ≤ WORD l1 l2) (hlen : 30 ≤ rest.length) :
    extract_raster_dims (0xA0 :: 0xD0 :: l1 :: l2 :: rest) =
      .ok ((WORD (rest.getD 26 0) (rest.getD 27 0),
            WORD (rest.getD 28 0) (rest.getD 29 0)), rest.drop 30) := by
  have hgd : ∀ j : Nat, j < 30 → (rest.take 30).getD j 0 = rest.getD j 0 := by
    intro j hj
    simp [List.getD_eq_getElem?_getD, List.getElem?_take, hj]
  have h30 : 30 ≤ ((WORD l1 l2 : Int) - 4).toNat := by omega
  show dimsScan (0xD0 :: l1 :: l2 :: rest).length 0xA0 (0xD0 :: l1 :: l2 :: rest) = _
  simp only [List.length_cons, dimsScan, if_pos rfl]
  rw [if_pos h30, if_pos hlen, hgd 26 (by omega), hgd 27 (by omega),
    hgd 28 (by omega), hgd 29 (by omega), if_pos trivial]

/-- The payload used by the C5 witness. -/
def c5pay : List Nat := List.replicate 26 0 ++ [0x22, 0, 0x33, 0]

/-- C5 witness: a well-formed raster-setup packet at the stream head. -/
theorem raster_dims_at_payload_offset_26_witness :
    extract_raster_dims (0xA0 :: 0xD0 :: 34 :: 0 :: c5pay) =
      .ok ((WORD (c5pay.getD 26 0) (c5pay.getD 27 0),
            WORD (c5pay.getD 28 0) (c5pay.getD 29 0)), c5pay.drop 30) :=
  raster_dims_at_payload_offset_26 34 0 c5pay (by decide) (by decide)

/-! ## CAPT job files (captstream.py, CAPTStream configuration and get_page) -/

/-- One entry of `CAPTStream.CONFIG`. -/
structure Config where
  paging_opcodes : List (Nat × Nat)
  page_header_size : Nat
  raster_data_opcode : Nat × Nat
  raster_end_opcode : Nat × Nat
  codec_name : String
  version : Nat
deriving Repr, DecidableEq

/-- CAPT 1: SCoA raster data. -/
def CONFIG1 : Config :=
  { paging_opcodes := [(0xA0, 0xD0), (0xA0, 0xC0)], page_header_size := 106,
    raster_data_opcode := (0xA0, 0xC0), raster_end_opcode := (0xA2, 0xD0),
    codec_name := "SCOA", version := 1 }

/-- CAPT 2: HiSCoA raster data. -/
def CONFIG2 : Config :=
  { paging_opcodes := [(0xA0, 0xD0), (0xA4, 0xD0), (0x00, 0x80)], page_header_size := 118,
    raster_data_opcode := (0x00, 0x80), raster_end_opcode := (0xA2, 0xD0),
    codec_name := "HSCA", version := 2 }

def MAGIC1 : List Nat := [0x01, 0x00, 0x18, 0x00, 0xCE, 0xDA, 0xDE, 0xFA]
def MAGIC2 : List Nat := [0x01, 0x00, 0x28, 0x00, 0xCE, 0xDA, 0xDE, 0xFA]

/-- `VERSION_LOOKUP[self._fh.read(MAGIC_SIZE)]` followed by
`CONFIG[version]`; the `KeyError` on an unknown magic is `none`. -/
def versionLookup (magic : List Nat) : Option Config :=
  if magic = MAGIC1 then some CONFIG1
  else if magic = MAGIC2 then some CONFIG2
  else none

/-- `CAPTStream.get_offsets`: map each scanner tuple `x` to
`[x[0] - page_header_size, x[0], x[1]]` (captstream.py lines 262-275). -/
def get_offsets (cfg : Config) (s : List Nat) : Except Unit (List (List Int)) :=
  (packet_first_offsets cfg.paging_opcodes 0 s).map
    (fun r => r.1.map (fun x => [x.headI - cfg.page_header_size, x.headI, x.getD 1 0]))

/-- ASCII bytes of a header string. -/
def strBytes (s : String) : List Nat := s.toList.map Char.toNat

/-- Failure modes of `get_page`.  `noDecoder` stands for
`ValueError(MSG_NO_DECODER)`: the constructor exists in the error space
but the source never raises it (see `get_page` below). -/
inductive GPErr where
  | unknownVersion : GPErr
  | invalidPage : GPErr
  | unknownFormat : GPErr
  | noDecoder : GPErr
  | scanError : GPErr
  | streamError : GPErr
  | decodeError : DecErr → GPErr
deriving Repr, DecidableEq

/-- `CAPTStream.get_page(page, out_format)` on a file-backed stream
(captstream.py lines 282-328).  The version comes from the file magic
(set at construction); the page offsets come from scanning the whole
file; the page check mirrors `if page > len(self.offsets) or page < 1:
raise IndexError(MSG_INVALID_PAGE)`; then the source seeks
`offsets[page-1][1]` (the raster-setup offset) and reads dimensions and
raster packets from there.  In the p4 branch the source line
`if not SCoADecoder: ValueError(self.MSG_NO_DECODER)` constructs the
exception without raising it, and its condition tests whether the scoa
module imported, not which codec the file uses — the statement is a
no-op, so no `noDecoder` error is ever produced and decoding proceeds
with the SCoA decoder regardless of the configured codec.  The raster
stream is extracted strictly before decoding, which agrees with the lazy
source pipeline whenever extraction succeeds. -/
def get_page (file : List Nat) (page : Int) (fmt : String) : Except GPErr (List Nat) :=
  match versionLookup (file.take 8) with
  | none => .error .unknownVersion
  | some cfg =>
    match get_offsets cfg file with
    | .error _ => .error .scanError
    | .ok offs =>
      if (offs.length : Int) < page ∨ page < 1 then .error .invalidPage
      else
        match extract_raster_dims
            (file.drop ((offs.getD (page - 1).toNat []).getD 1 0).toNat) with
        | .error _ => .error .streamError
        | .ok (dims, rest) =>
          if fmt = "raw" then
            match extract_packets rest cfg.raster_data_opcode
                (some cfg.raster_end_opcode) none false with
            | .error _ => .error .streamError
            | .ok data =>
              .ok (strBytes (cfg.codec_name ++ "\n" ++ toString (dims.1 * 8) ++ " " ++
                toString dims.2 ++ "\n" ++ toString data.length ++ "\n") ++ data)
          else if fmt = "p4" then
            match extract_packets rest cfg.raster_data_opcode
                (some cfg.raster_end_opcode) none false with
            | .error _ => .error .streamError
            | .ok raw =>
              match decode (initState dims.1 0) raw with
              | .error e => .error (.decodeError e)
              | .ok data =>
                .ok (strBytes ("P4\n" ++ toString (dims.1 * 8) ++ " " ++
                  toString dims.2 ++ "\n") ++ data)
          else .error .unknownFormat

/-- A complete CAPT 2 (HiSCoA codec) job file: magic, a raster-setup
packet declaring a 1-byte-wide, 1-pixel-high raster, a HiSCoA-params
packet, one raster-data packet whose payload is the single SCoA EOP byte
0x42, and the raster-end packet. -/
def c6file : List Nat :=
  [0x01, 0x00, 0x28, 0x00, 0xCE, 0xDA, 0xDE, 0xFA] ++
  ([0xA0, 0xD0, 34, 0] ++ (List.replicate 26 0 ++ [1, 0, 1, 0])) ++
  [0xA4, 0xD0, 5, 0, 0] ++
  [0x00, 0x80, 5, 0, 0x42] ++
  [0xA2, 0xD0, 4, 0]

/-! ## Claim C6 -/

/-- C6: the code bug evaluated.  On the CAPT 2 job file — whose
configured codec is `HSCA`, not SCoA — `get_page(1, 'p4')` does not fail
with the NoDecoder error: the guard in the source constructs
`ValueError(MSG_NO_DECODER)` without raising it (and tests module
availability, not the codec), so the call SCoA-decodes the HiSCoA stream
and returns a P4 page. -/
theorem get_page_p4_on_hiscoa_returns_output :
    versionLookup (c6file.take 8) = some CONFIG2 ∧
      CONFIG2.codec_name ≠ "SCOA" ∧
      get_page c6file 1 "p4" = .ok (strBytes "P4\n8 1\n") := by
  refine ⟨rfl, by decide, ?_⟩
  rfl

/-! ## Claim C9 -/

/-- C9 (confirmed): for a job file whose magic resolves to a
configuration and whose scan produces the page-offset table `offs`,
`get_page` fails with `InvalidPage` exactly when the requested 1-based
page number is less than 1 or greater than the number of detected pages;
no in-range page ever produces `InvalidPage` (later failures surface as
different errors). -/
theorem get_page_invalid_page_iff (file : List Nat) (page : Int) (fmt : String)
    (cfg : Config) (offs : List (List Int))
    (hv : versionLookup (file.take 8) = some cfg)
    (ho : get_offsets cfg file = .ok offs) :
    get_page file page fmt = .error GPErr.invalidPage ↔
      ((offs.length : Int) < page ∨ page < 1) := by
  simp only [get_page, hv, ho]
  by_cases hin : (offs.length : Int) < page ∨ page < 1
  · rw [if_pos hin]
    simp [hin]
  · rw [if_neg hin]
    refine iff_of_false ?_ hin
    intro hcontra
    cases hd : extract_raster_dims
        (file.drop ((offs.getD (page - 1).toNat []).getD 1 0).toNat) with
    | error e => simp only [hd] at hcontra; simp at hcontra
    | ok r =>
      obtain ⟨dims, rest⟩ := r
      simp only [hd] at hcontra
      by_cases hraw : fmt = "raw"
      · rw [if_pos hraw] at hcontra
        cases he : extract_packets rest cfg.raster_data_opcode
            (some cfg.raster_end_opcode) none false with
        | error e => simp only [he] at hcontra; simp at hcontra
        | ok data => simp only [he] at hcontra; simp at hcontra
      · rw [if_neg hraw] at hcontra
        by_cases hp4 : fmt = "p4"
        · rw [if_pos hp4] at hcontra
          cases he : extract_packets rest cfg.raster_data_opcode
              (some cfg.raster_end_opcode) none false with
          | error e => simp only [he] at hcontra; simp at hcontra
          | ok raw =>
            simp only [he] at hcontra
            cases hdec : decode (initState dims.1 0) raw with
            | error e => simp only [hdec] at hcontra; simp at hcontra
            | ok data => simp only [hdec] at hcontra; simp at hcontra
        · rw [if_neg hp4] at hcontra
          simp at hcontra

/-- C9 witness: on the CAPT 2 job file (one detected page), page 0 is
rejected with `InvalidPage`. -/
theorem get_page_invalid_page_iff_witness :
    get_page c6file 0 "p4" = .error GPErr.invalidPage :=
  (get_page_invalid_page_iff c6file 0 "p4" CONFIG2 [[-110, 8, 42]] (by rfl)
    (by rfl)).mpr (by decide)
